import Mathlib

/-!
# kazeburo/go-haproxy: the CSV normaliser of `haproxy.go`

A shallow embedding of `parseInt`, `mapToStats`, `parseCSV`, the configuration
options, `fetch` and `Status` from `src/haproxy.go`, with theorems about them.

Modelling conventions

* A Go `string` is a Lean `String` (so only valid UTF-8 text is covered); the
  library functions of `strings` and `strconv` that the source calls are
  modelled on the character list `s.data`.
* A Go `map[string]string` is a partial function `String → Option String`;
  reading a key that is absent yields the zero value `""`.
* A Go `error` is `Option String` (`none` is `nil`), and a slice is a `List`
  (the `nil` slice is the empty list: both have `len` 0).
* A run-time panic (index out of range) is the outer `none` of an `Option`.
* The CSV decoder is a parameter of `parseCSV`. The decoder of the program,
  `csv.Reader.ReadAll` with `FieldsPerRecord` 0, is `ReadAll`: its field count
  check is modelled, the record lexer under it is a parameter.
* Go's `int` is taken to be 64 bits wide (`intSize`).
-/

namespace Haproxy

/-! ## Library models: `strings` -/

/-- Model of `strings.HasPrefix(s, "#")`. -/
def hasHashPrefix (s : String) : Bool :=
  match s.data with
  | c :: _ => c == '#'
  | [] => false

/-- Model of `strings.TrimPrefix(s, "#")`: one leading `#` is removed when
there is one, otherwise `s` is returned unchanged. -/
def trimHashPrefix (s : String) : String :=
  match s.data with
  | c :: rest => if c == '#' then String.mk rest else s
  | [] => s

/-- Model of `unicode.IsSpace`: the Unicode White_Space code points. -/
def isSpace (c : Char) : Bool :=
  let n := c.toNat
  (9 ≤ n && n ≤ 13) || n == 32 || n == 133 || n == 160 || n == 5760 ||
  (8192 ≤ n && n ≤ 8202) || n == 8232 || n == 8233 || n == 8239 ||
  n == 8287 || n == 12288

/-- Model of `strings.TrimSpace`: all leading and trailing white space is
removed. -/
def trimSpace (s : String) : String :=
  String.mk ((s.data.dropWhile isSpace).reverse.dropWhile isSpace).reverse

/-! ## Library models: `strconv.Atoi` -/

/-- Width of Go's `int` (`strconv.IntSize`). -/
def intSize : Nat := 64

/-- Test `'0' <= c && c <= '9'` of `strconv.ParseUint`. -/
def isDecDigit (c : Char) : Bool := 48 ≤ c.toNat && c.toNat ≤ 57

/-- The digit `c - '0'`. -/
def digitVal (c : Char) : Nat := c.toNat - 48

/-- The digit loop of `strconv.ParseUint` in base 10 (`n = n*10 + d`), with an
unbounded accumulator; `none` is the syntax error raised at a byte that is not
a decimal digit. The range check is made on the final value by `Atoi`. -/
def parseDigits : List Char → Nat → Option Nat
  | [], n => some n
  | c :: cs, n => if isDecDigit c then parseDigits cs (n * 10 + digitVal c) else none

/-- Model of `strconv.Atoi(s)`, which is `strconv.ParseInt(s, 10, 0)`: an
optional sign `+` or `-`, then one or more decimal digits, denoting a value
that fits Go's `int`. `none` stands for a non-nil error (`ErrSyntax` for an
empty string, a missing or a bad digit; `ErrRange` when the value does not fit
in `intSize` bits). -/
def Atoi (s : String) : Option Int :=
  match s.data with
  | [] => none
  | c :: cs =>
    let neg := c == '-'
    let digits := if c == '+' || c == '-' then cs else c :: cs
    match digits with
    | [] => none
    | _ :: _ =>
      match parseDigits digits 0 with
      | none => none
      | some un =>
        let cutoff := 2 ^ (intSize - 1)
        if !neg && cutoff ≤ un then none
        else if neg && cutoff < un then none
        else some (if neg then -(un : Int) else (un : Int))

/-! ## `haproxy.go` -/

/-- The Go struct `Stats` (the field `Type` is written `Type_`, `Type` being
reserved in Lean). -/
structure Stats where
  Pxname : String
  Svname : String
  Stot : Int
  Type_ : String
  Rate : Int
  Bck : Int
  Status : String
  Scur : Int
  deriving DecidableEq, Repr

/-- A Go `map[string]string`. -/
abbrev StatsRow := String → Option String

namespace StatsRow

/-- The map literal `map[string]string{}`. -/
def empty : StatsRow := fun _ => none

/-- The index expression `m[k]`: the zero value `""` when `k` is absent. -/
def get (m : StatsRow) (k : String) : String := (m k).getD ""

/-- The assignment `m[k] = v`. -/
def set (m : StatsRow) (k v : String) : StatsRow :=
  fun k' => if k' = k then some v else m k'

/-- The builtin `delete(m, k)`. -/
def delete (m : StatsRow) (k : String) : StatsRow :=
  fun k' => if k' = k then none else m k'

end StatsRow

/-- `func parseInt(s string) int`: `strconv.Atoi`, with 0 on any error. -/
def parseInt (s : String) : Int :=
  match Atoi s with
  | none => 0
  | some i => i

/-- `func mapToStats(s map[string]string) *Stats`. -/
def mapToStats (s : StatsRow) : Stats :=
  let n : Stats :=
    { Pxname := s.get "pxname"
      Svname := s.get "svname"
      Status := s.get "status"
      Stot := parseInt (s.get "stot")
      Rate := parseInt (s.get "rate")
      Bck := parseInt (s.get "bck")
      Scur := parseInt (s.get "scur")
      Type_ := "" }
  if s.get "type" = "0" then { n with Type_ := "FRONTEND" }
  else if s.get "type" = "1" then { n with Type_ := "BACKEND" }
  else if s.get "type" = "2" then { n with Type_ := "SERVER" }
  else if s.get "type" = "3" then { n with Type_ := "LISTENER" }
  else { n with Type_ := "UNKNOWN" }

/-- The pair `([]*Stats, error)` returned by `parseCSV`. -/
structure ParseResult where
  status : List Stats
  err : Option String
  deriving DecidableEq, Repr

/-- The raw response body, a Go `[]byte`. -/
abbrev Bytes := List (Fin 256)

/-- The outcome of `csv.NewReader(bytes.NewReader(data)).ReadAll()`: an error,
or the decoded table, one list of cells for each record. The decoder belongs to
the Go library and is a parameter of `parseCSV`; the decoder of the program is
`ReadAll`, below. -/
abbrev Decoder := Bytes → Except String (List (List String))

/-- The record lexer of `encoding/csv` (`Reader.readRecord` without its field
count check): the records it reads from the input, each with the number of the
input line on which it starts, up to the end of the input or to the first
lexical error, and that error when there is one. Library code, a parameter. -/
abbrev RecordReader := Bytes → List (Nat × List String) × Option String

/-- The text of the `csv.ParseError` whose `Err` is `ErrFieldCount`, for a
record that starts on line `line`. -/
def fieldCountMsg (line : Nat) : String :=
  "record on line " ++ toString line ++ ": wrong number of fields"

/-- The loop of `csv.Reader.ReadAll` over the records that `readRecord` yields,
with the field count check that ends `readRecord`: while `FieldsPerRecord` is 0
a record sets it to its number of fields; once it is positive, a record with
another number of fields is the error `ErrFieldCount` for its line and nothing
is returned. A lexical error ends the loop with that error. -/
def fieldCountLoop : Nat → List (Nat × List String) → Option String → List (List String) →
    Except String (List (List String))
  | _, [], none, records => .ok records
  | _, [], some e, _ => .error e
  | fieldsPerRecord, (line, record) :: rest, lexErr, records =>
    if 0 < fieldsPerRecord then
      if record.length ≠ fieldsPerRecord then .error (fieldCountMsg line)
      else fieldCountLoop fieldsPerRecord rest lexErr (records ++ [record])
    else fieldCountLoop record.length rest lexErr (records ++ [record])

/-- Model of `csv.NewReader(bytes.NewReader(data)).ReadAll()` as `parseCSV`
calls it: a new reader has `FieldsPerRecord` 0, so every record must have as
many fields as the first one. -/
def ReadAll (readRecords : RecordReader) : Decoder :=
  fun data => fieldCountLoop 0 (readRecords data).1 (readRecords data).2 []

/-- The loop `for k, col := range record` of `parseCSV` (header extraction):
cell 0 loses one leading `#` and its surrounding white space, and every cell is
appended to `header`. -/
def headerLoop : Nat → List String → List String → List String
  | _, [], header => header
  | k, col :: rest, header =>
    let col := if k = 0 then trimSpace (trimHashPrefix col) else col
    headerLoop (k + 1) rest (header ++ [col])

/-- The loop `for j, col := range header { statsRow[col] = record[j] }` of
`parseCSV`; `none` is the index-out-of-range panic of `record[j]`. -/
def statsRowLoop (record : List String) : Nat → List String → StatsRow → Option StatsRow
  | _, [], statsRow => some statsRow
  | j, col :: rest, statsRow =>
    match record[j]? with
    | none => none
    | some v => statsRowLoop record (j + 1) rest (statsRow.set col v)

/-- The loop `for i, record := range records` of `parseCSV`, from index `i` on,
with the current values of the variables `header` and `status`. The outer
`none` is a panic (`record[0]` on a record without cells, or `record[j]` out of
range); `some r` is the pair the function returns. -/
def rowLoop : Nat → List (List String) → List String → List Stats → Option ParseResult
  | _, [], _, status => some ⟨status, none⟩
  | i, record :: rest, header, status =>
    -- `i == 0 && strings.HasPrefix(record[0], "#")`, evaluated left to right
    match (if i = 0 then record[0]?.map hasHashPrefix else some false) with
    | none => none
    | some true => rowLoop (i + 1) rest (headerLoop 0 record header) status
    | some false =>
      if header.length = 0 then
        some ⟨[], some "header not found before data rows"⟩
      else if header.length ≠ record.length then
        some ⟨[], some ("mismatched number of columns in record " ++ toString i)⟩
      else
        match statsRowLoop record 0 header StatsRow.empty with
        | none => none
        | some statsRow => rowLoop (i + 1) rest header (status ++ [mapToStats statsRow])

/-- The part of `parseCSV` that follows the decoding, on the decoded table
`records`. -/
def parseRecords (records : List (List String)) : Option ParseResult :=
  if records.length = 0 then
    some ⟨[], some "no records found in CSV data"⟩
  else if records.length < 2 then
    some ⟨[], none⟩
  else
    rowLoop 0 records [] []

/-- `func (c *haproxyClient) parseCSV(data []byte) ([]*Stats, error)`. The
receiver is not used by the body and is left out; `readAll` is the CSV decoder
of the Go library. The program runs `parseCSV (ReadAll readRecords)`; what is
proved for every decoder holds for that one. -/
def parseCSV (readAll : Decoder) (data : Bytes) : Option ParseResult :=
  match readAll data with
  | .error e => some ⟨[], some e⟩
  | .ok records => parseRecords records

/-! ## Library models: `fmt.Sprintf` and `net/http` -/

/-- The formatting loop of `fmt.Sprintf` for string operands and the verbs
`%s` and `%%`; the flag tells that the character before was an unconsumed `%`.
`%s` is replaced by the next operand, copied as it is (by `%!s(MISSING)` when
the operands are used up), `%%` by one `%`, a `%` that ends the format by
`%!(NOVERB)`, and every other character of the format is copied. Other verbs
and operands left over at the end are not modelled (a verb other than `s` is
copied); the call in `fetch` has the verb `%s` only, as often as operands. -/
def sprintfLoop : List Char → Bool → List String → String → String
  | [], afterPercent, _, out => if afterPercent then out ++ "%!(NOVERB)" else out
  | c :: rest, false, args, out =>
    if c = '%' then sprintfLoop rest true args out
    else sprintfLoop rest false args (out.push c)
  | c :: rest, true, args, out =>
    if c = 's' then
      match args with
      | a :: args2 => sprintfLoop rest false args2 (out ++ a)
      | [] => sprintfLoop rest false [] (out ++ "%!s(MISSING)")
    else if c = '%' then sprintfLoop rest false args (out.push '%')
    else sprintfLoop rest false args ((out.push '%').push c)

/-- Model of `fmt.Sprintf(format, args...)` with string operands. -/
def Sprintf (format : String) (args : List String) : String :=
  sprintfLoop format.data false args ""

/-- A Go `*http.Client` as far as `fetch` uses it: the outcome of building the
GET request for a URL, sending it with `Do` and reading the whole body, which
is an error or the body. The steps belong to the Go library. -/
structure Client where
  roundTrip : String → Except String Bytes

/-! ## `haproxy.go`: the client configuration -/

/-- The Go struct `haproxyClient`. -/
structure haproxyClient where
  host : String
  port : String
  path : String
  httpClient : Client

/-- `type ConfigOption func(*haproxyClient)`: the update made through the
pointer is the returned configuration. -/
abbrev ConfigOption := haproxyClient → haproxyClient

/-- `func Host(host string) ConfigOption`. -/
def Host (host : String) : ConfigOption := fun r => { r with host := host }

/-- `func Port(port string) ConfigOption`. -/
def Port (port : String) : ConfigOption := fun r => { r with port := port }

/-- `func Path(path string) ConfigOption`. -/
def Path (path : String) : ConfigOption := fun r => { r with path := path }

/-- `func HTTPClient(client *http.Client) ConfigOption`. -/
def HTTPClient (client : Client) : ConfigOption := fun r => { r with httpClient := client }

/-- The local `url` of `fetch`:
`fmt.Sprintf("http://%s:%s%s;csv", c.host, c.port, c.path)`. -/
def haproxyClient.url (c : haproxyClient) : String :=
  Sprintf "http://%s:%s%s;csv" [c.host, c.port, c.path]

/-- `func (c *haproxyClient) fetch() ([]byte, error)`: the GET of `url` through
`c.httpClient`; each of its three error returns hands the library's error on. -/
def haproxyClient.fetch (c : haproxyClient) : Except String Bytes :=
  c.httpClient.roundTrip c.url

/-- The configuration `cfg` that `Status` starts from; `defaultHTTPClient` is
the package variable of that name. -/
def defaultConfig (defaultHTTPClient : Client) : haproxyClient :=
  { host := "127.0.0.1"
    port := "9999"
    path := "/haproxy?stats"
    httpClient := defaultHTTPClient }

/-- The loop `for _, opt := range opts { opt(cfg) }` of `Status`. -/
def applyOptions : List ConfigOption → haproxyClient → haproxyClient
  | [], cfg => cfg
  | opt :: opts, cfg => applyOptions opts (opt cfg)

/-- `func Status(opts ...ConfigOption) ([]*Stats, error)`. -/
def Status (defaultHTTPClient : Client) (readAll : Decoder) (opts : List ConfigOption) :
    Option ParseResult :=
  let cfg := applyOptions opts (defaultConfig defaultHTTPClient)
  match cfg.fetch with
  | .error e => some ⟨[], some e⟩
  | .ok data =>
    match parseCSV readAll data with
    | none => none
    | some r =>
      match r.err with
      | some e => some ⟨[], some e⟩
      | none => some ⟨r.status, none⟩

/-! ## Vocabulary of the claims -/

/-- The header that `parseCSV` extracts from row 0 when its first cell begins
with `#`: the value of `header` after the inner loop, started on the empty
slice. -/
def extractHeader (record : List String) : List String := headerLoop 0 record []

/-- The column-name → value mapping of a data row as the specification words
it: header and cells are zipped positionally and entered from left to right,
so that a later occurrence of a name overrides an earlier one. -/
def rowMapping (header record : List String) : StatsRow :=
  (header.zip record).foldl (fun m p => m.set p.1 p.2) StatsRow.empty

/-- The message of the column-count error for the record of index `i`. -/
def mismatchMsg (i : Nat) : String :=
  "mismatched number of columns in record " ++ toString i

/-- A base-10 integer literal as the specification words it: an optional sign
followed by one or more decimal digits. -/
def isIntLiteral (s : String) : Bool :=
  match s.data with
  | [] => false
  | c :: cs =>
    if c = '+' ∨ c = '-' then !cs.isEmpty && cs.all Char.isDigit
    else (c :: cs).all Char.isDigit

/-- Value of a list of decimal digits given least significant digit first. -/
def positional : List Nat → Nat
  | [] => 0
  | d :: ds => d + 10 * positional ds

/-- The natural number that a string of decimal digits denotes: the digit at
distance `i` from the right end has weight `10 ^ i`. -/
def decimalValue (ds : List Char) : Nat :=
  positional (ds.reverse.map (fun c => c.toNat - '0'.toNat))

/-- The integer that a base-10 literal denotes. -/
def literalValue (s : String) : Int :=
  match s.data with
  | [] => 0
  | c :: cs =>
    if c = '-' then -(decimalValue cs : Int)
    else if c = '+' then (decimalValue cs : Int)
    else (decimalValue (c :: cs) : Int)

/-- Least value of Go's `int`. -/
def minInt : Int := -(2 ^ (intSize - 1))

/-- Greatest value of Go's `int`. -/
def maxInt : Int := 2 ^ (intSize - 1) - 1

/-- Whether the string begins with a minus sign. -/
def hasMinusPrefix (s : String) : Bool :=
  match s.data with
  | c :: _ => c == '-'
  | [] => false

/-! ## Lemmas on `Atoi` and `parseInt` -/

theorem isDecDigit_eq_isDigit (c : Char) : isDecDigit c = c.isDigit := by
  simp only [isDecDigit, Char.isDigit, Char.toNat, UInt32.le_def, ge_iff_le]
  rfl

theorem parseDigits_none (ds : List Char) :
    ∀ n : Nat, ds.all Char.isDigit = false → parseDigits ds n = none := by
  induction ds with
  | nil => intro n h; simp at h
  | cons c cs ih =>
    intro n h
    rw [parseDigits]
    by_cases hc : isDecDigit c = true
    · rw [if_pos hc]
      apply ih
      rw [isDecDigit_eq_isDigit] at hc
      simpa [hc] using h
    · rw [if_neg hc]

theorem positional_append (xs ys : List Nat) :
    positional (xs ++ ys) = positional xs + 10 ^ xs.length * positional ys := by
  induction xs with
  | nil => simp [positional]
  | cons x xs ih =>
    rw [List.cons_append, positional, ih, positional, List.length_cons]
    ring

theorem decimalValue_cons (c : Char) (cs : List Char) :
    decimalValue (c :: cs) = digitVal c * 10 ^ cs.length + decimalValue cs := by
  simp [decimalValue, positional_append, positional, digitVal]
  ring

theorem parseDigits_some (ds : List Char) :
    ∀ n : Nat, ds.all Char.isDigit = true →
      parseDigits ds n = some (n * 10 ^ ds.length + decimalValue ds) := by
  induction ds with
  | nil => intro n _; simp [parseDigits, decimalValue, positional]
  | cons c cs ih =>
    intro n h
    have hc : isDecDigit c = true := by
      rw [isDecDigit_eq_isDigit]; simp at h; exact h.1
    have hcs : cs.all Char.isDigit = true := by
      simp at h; simpa using h.2
    rw [parseDigits, if_pos hc, ih _ hcs, decimalValue_cons]
    congr 1
    simp only [List.length_cons]
    ring

theorem Atoi_not_literal (s : String) (h : isIntLiteral s = false) : Atoi s = none := by
  obtain ⟨l⟩ := s
  cases l with
  | nil => simp [Atoi]
  | cons c cs =>
    simp only [isIntLiteral] at h
    simp only [Atoi]
    by_cases hs : c = '+' ∨ c = '-'
    · rw [if_pos hs] at h
      have hs' : (c == '+' || c == '-') = true := by simpa using hs
      simp only [hs', if_true]
      cases cs with
      | nil => rfl
      | cons d ds =>
        have hd : (d :: ds).all Char.isDigit = false := by simpa using h
        simp only [parseDigits_none (d :: ds) 0 hd]
    · rw [if_neg hs] at h
      have hs' : (c == '+' || c == '-') = false := by simpa using hs
      simp only [hs']
      simp [parseDigits_none (c :: cs) 0 h]

theorem Atoi_literal (s : String) (h : isIntLiteral s = true) :
    Atoi s = if minInt ≤ literalValue s ∧ literalValue s ≤ maxInt
      then some (literalValue s) else none := by
  obtain ⟨l⟩ := s
  cases l with
  | nil => simp [isIntLiteral] at h
  | cons c cs =>
    simp only [isIntLiteral] at h
    simp only [Atoi, literalValue, minInt, maxInt, intSize]
    by_cases hm : c = '-'
    · subst hm
      have hcs : cs ≠ [] ∧ cs.all Char.isDigit = true := by simpa using h
      obtain ⟨d, ds, rfl⟩ := List.exists_cons_of_ne_nil hcs.1
      simp only [beq_self_eq_true, Bool.or_true, if_true, Bool.not_true, Bool.false_and,
        Bool.true_and, Bool.false_eq_true, if_false, decide_eq_true_eq,
        parseDigits_some _ 0 hcs.2]
      simp only [Nat.zero_mul, Nat.zero_add]
      generalize decimalValue (d :: ds) = v
      norm_num
      by_cases hv : 9223372036854775808 < v
      · rw [if_pos hv, if_neg (by omega)]
      · rw [if_neg hv, if_pos (by omega)]
    · by_cases hp : c = '+'
      · subst hp
        have hcs : cs ≠ [] ∧ cs.all Char.isDigit = true := by simpa using h
        obtain ⟨d, ds, rfl⟩ := List.exists_cons_of_ne_nil hcs.1
        have h1 : ('+' == '-') = false := by decide
        simp only [beq_self_eq_true, Bool.true_or, if_true, h1, Bool.not_false, Bool.false_and,
          Bool.true_and, Bool.false_eq_true, if_false, decide_eq_true_eq, hm,
          parseDigits_some _ 0 hcs.2]
        simp only [Nat.zero_mul, Nat.zero_add]
        generalize decimalValue (d :: ds) = v
        norm_num
        by_cases hv : 9223372036854775808 ≤ v
        · rw [if_pos hv, if_neg (by omega)]
        · rw [if_neg hv, if_pos (by omega)]
      · have hs : ¬ (c = '+' ∨ c = '-') := by simp [hm, hp]
        rw [if_neg hs] at h
        have h1 : (c == '-') = false := by simpa using hm
        have h2 : (c == '+') = false := by simpa using hp
        simp only [h1, h2, Bool.or_false, Bool.false_eq_true, if_false, Bool.not_false,
          Bool.false_and, Bool.true_and, decide_eq_true_eq, hm, hp,
          parseDigits_some _ 0 h]
        simp only [Nat.zero_mul, Nat.zero_add]
        generalize decimalValue (c :: cs) = v
        norm_num
        by_cases hv : 9223372036854775808 ≤ v
        · rw [if_pos hv, if_neg (by omega)]
        · rw [if_neg hv, if_pos (by omega)]

theorem parseInt_not_literal (s : String) (h : isIntLiteral s = false) : parseInt s = 0 := by
  simp [parseInt, Atoi_not_literal s h]

theorem parseInt_literal (s : String) (h : isIntLiteral s = true) :
    parseInt s = if minInt ≤ literalValue s ∧ literalValue s ≤ maxInt
      then literalValue s else 0 := by
  rw [parseInt, Atoi_literal s h]
  split_ifs <;> rfl

theorem literalValue_nonneg (s : String) (h : hasMinusPrefix s = false) :
    0 ≤ literalValue s := by
  obtain ⟨l⟩ := s
  cases l with
  | nil => simp [literalValue]
  | cons c cs =>
    have hc : ¬ c = '-' := by simpa [hasMinusPrefix] using h
    simp only [literalValue, if_neg hc]
    split_ifs <;> exact Int.ofNat_nonneg _

theorem parseInt_nonneg (s : String) (h : hasMinusPrefix s = false) : 0 ≤ parseInt s := by
  cases hl : isIntLiteral s with
  | false => rw [parseInt_not_literal s hl]
  | true =>
    rw [parseInt_literal s hl]
    split_ifs
    · exact literalValue_nonneg s h
    · exact le_refl _

/-! ## Lemmas on the loops -/

theorem headerLoop_length (record : List String) :
    ∀ (k : Nat) (header : List String),
      (headerLoop k record header).length = header.length + record.length := by
  induction record with
  | nil => intro k header; simp [headerLoop]
  | cons col rest ih =>
    intro k header
    simp only [headerLoop, ih, List.length_append, List.length_cons, List.length_nil]
    omega

theorem extractHeader_length (record : List String) :
    (extractHeader record).length = record.length := by
  simp [extractHeader, headerLoop_length]

theorem statsRowLoop_eq (record : List String) :
    ∀ (header : List String) (j : Nat) (m : StatsRow),
      j + header.length ≤ record.length →
      statsRowLoop record j header m
        = some ((header.zip (record.drop j)).foldl (fun m p => m.set p.1 p.2) m) := by
  intro header
  induction header with
  | nil => intro j m _; simp [statsRowLoop]
  | cons col rest ih =>
    intro j m h
    have hj : j < record.length := by simp at h; omega
    have hdrop : record.drop j = record[j] :: record.drop (j + 1) :=
      List.drop_eq_getElem_cons hj
    have hget : record[j]? = some record[j] := List.getElem?_eq_getElem hj
    rw [statsRowLoop, hget, hdrop]
    simp only [List.zip_cons_cons, List.foldl_cons]
    apply ih
    simp at h
    omega

theorem statsRowLoop_rowMapping (header record : List String)
    (h : header.length = record.length) :
    statsRowLoop record 0 header StatsRow.empty = some (rowMapping header record) := by
  have := statsRowLoop_eq record header 0 StatsRow.empty (by omega)
  simpa [rowMapping] using this

theorem rowLoop_data_ok (header : List String) (hh : header.length ≠ 0) :
    ∀ (rows : List (List String)) (i : Nat) (status : List Stats),
      i ≠ 0 → (∀ r ∈ rows, r.length = header.length) →
      rowLoop i rows header status
        = some ⟨status ++ rows.map (fun r => mapToStats (rowMapping header r)), none⟩ := by
  intro rows
  induction rows with
  | nil => intro i status _ _; simp [rowLoop]
  | cons r rest ih =>
    intro i status hi hall
    have hr : header.length = r.length := (hall r (List.mem_cons_self _ _)).symm
    rw [rowLoop]
    simp only [hi, if_false, hh, hr ▸ hh]
    rw [if_neg (by simpa using hr), statsRowLoop_rowMapping header r hr]
    simp only
    rw [ih (i + 1) _ (by omega) (fun x hx => hall x (List.mem_cons_of_mem _ hx))]
    simp

theorem rowLoop_data_mismatch (header : List String) (hh : header.length ≠ 0)
    (bad : List String) (post : List (List String)) (hbad : bad.length ≠ header.length) :
    ∀ (pre : List (List String)) (i : Nat) (status : List Stats),
      i ≠ 0 → (∀ r ∈ pre, r.length = header.length) →
      rowLoop i (pre ++ bad :: post) header status
        = some ⟨[], some (mismatchMsg (i + pre.length))⟩ := by
  intro pre
  induction pre with
  | nil =>
    intro i status hi _
    rw [List.nil_append, rowLoop]
    simp only [hi, if_false, hh]
    rw [if_pos (fun h => hbad h.symm)]
    simp [mismatchMsg]
  | cons r rest ih =>
    intro i status hi hall
    have hr : header.length = r.length := (hall r (List.mem_cons_self _ _)).symm
    rw [List.cons_append, rowLoop]
    simp only [hi, if_false, hh]
    rw [if_neg (by simpa using hr), statsRowLoop_rowMapping header r hr]
    simp only
    rw [ih (i + 1) _ (by omega) (fun x hx => hall x (List.mem_cons_of_mem _ hx))]
    have hlen : i + 1 + rest.length = i + (rest.length + 1) := by omega
    rw [List.length_cons, hlen]

theorem rowLoop_zero_hash (c0 : String) (cs : List String) (rest : List (List String))
    (h : hasHashPrefix c0 = true) :
    rowLoop 0 ((c0 :: cs) :: rest) [] [] = rowLoop 1 rest (extractHeader (c0 :: cs)) [] := by
  rw [rowLoop]
  simp [h, extractHeader]

theorem rowLoop_zero_nohash (c0 : String) (cs : List String) (rest : List (List String))
    (h : hasHashPrefix c0 = false) :
    rowLoop 0 ((c0 :: cs) :: rest) [] []
      = some ⟨[], some "header not found before data rows"⟩ := by
  rw [rowLoop]
  simp [h]

theorem parseCSV_ok (readAll : Decoder) (data : Bytes) (records : List (List String))
    (h : readAll data = Except.ok records) :
    parseCSV readAll data = parseRecords records := by
  simp [parseCSV, h]

theorem parseRecords_cons_cons (row0 row1 : List String) (rest : List (List String)) :
    parseRecords (row0 :: row1 :: rest) = rowLoop 0 (row0 :: row1 :: rest) [] [] := by
  simp [parseRecords]

theorem exists_first_mismatch (n : Nat) :
    ∀ (rows : List (List String)), (∃ r ∈ rows, r.length ≠ n) →
      ∃ pre bad post, rows = pre ++ bad :: post ∧ (∀ r ∈ pre, r.length = n) ∧
        bad.length ≠ n := by
  intro rows
  induction rows with
  | nil => rintro ⟨r, hr, _⟩; simp at hr
  | cons x rest ih =>
    rintro ⟨r, hr, hne⟩
    by_cases hx : x.length = n
    · have hrest : ∃ r ∈ rest, r.length ≠ n := by
        rcases List.mem_cons.mp hr with h | h
        · exact absurd (h ▸ hx) hne
        · exact ⟨r, h, hne⟩
      obtain ⟨pre, bad, post, he, hpre, hb⟩ := ih hrest
      refine ⟨x :: pre, bad, post, by simp [he], ?_, hb⟩
      intro y hy
      rcases List.mem_cons.mp hy with h | h
      · exact h ▸ hx
      · exact hpre y h
    · exact ⟨[], x, rest, by simp, by simp, hx⟩

theorem rowLoop_data_total (header : List String) :
    ∀ (rows : List (List String)) (i : Nat) (status : List Stats), i ≠ 0 →
      ∃ r, rowLoop i rows header status = some r ∧
        (r.err = none ∨ (r.err.isSome = true ∧ r.status = [])) := by
  intro rows
  induction rows with
  | nil => intro i status _; exact ⟨⟨status, none⟩, by simp [rowLoop], Or.inl rfl⟩
  | cons row rest ih =>
    intro i status hi
    rw [rowLoop]
    simp only [hi, if_false]
    by_cases hh : header.length = 0
    · rw [if_pos hh]; exact ⟨_, rfl, Or.inr ⟨rfl, rfl⟩⟩
    · rw [if_neg hh]
      by_cases hr : header.length = row.length
      · rw [if_neg (by simpa using hr), statsRowLoop_rowMapping header row hr]
        exact ih (i + 1) _ (by omega)
      · rw [if_pos hr]; exact ⟨_, rfl, Or.inr ⟨rfl, rfl⟩⟩

theorem parseRecords_total (records : List (List String))
    (hrows : ∀ row ∈ records, row ≠ []) :
    ∃ r, parseRecords records = some r ∧
      (r.err = none ∨ (r.err.isSome = true ∧ r.status = [])) := by
  match records, hrows with
  | [], _ =>
    exact ⟨⟨[], some "no records found in CSV data"⟩, by simp [parseRecords],
      Or.inr ⟨rfl, rfl⟩⟩
  | [_], _ => exact ⟨⟨[], none⟩, by simp [parseRecords], Or.inl rfl⟩
  | [] :: _ :: _, h => exact absurd rfl (h [] (List.mem_cons_self _ _))
  | (c0 :: cs) :: row1 :: rest, _ =>
    rw [parseRecords_cons_cons]
    cases hc : hasHashPrefix c0 with
    | true =>
      rw [rowLoop_zero_hash c0 cs _ hc]
      exact rowLoop_data_total _ _ 1 [] (by omega)
    | false =>
      rw [rowLoop_zero_nohash c0 cs _ hc]
      exact ⟨_, rfl, Or.inr ⟨rfl, rfl⟩⟩

theorem mapToStats_set_stot (m : StatsRow) (s : String) (h : parseInt s = 0) :
    mapToStats (m.set "stot" s) = { mapToStats m with Stot := 0 } := by
  simp only [mapToStats, StatsRow.get, StatsRow.set, h]
  simp
  split_ifs <;> simp [h]

theorem mapToStats_set_rate (m : StatsRow) (s : String) (h : parseInt s = 0) :
    mapToStats (m.set "rate" s) = { mapToStats m with Rate := 0 } := by
  simp only [mapToStats, StatsRow.get, StatsRow.set, h]
  simp
  split_ifs <;> simp [h]

theorem mapToStats_set_bck (m : StatsRow) (s : String) (h : parseInt s = 0) :
    mapToStats (m.set "bck" s) = { mapToStats m with Bck := 0 } := by
  simp only [mapToStats, StatsRow.get, StatsRow.set, h]
  simp
  split_ifs <;> simp [h]

theorem mapToStats_set_scur (m : StatsRow) (s : String) (h : parseInt s = 0) :
    mapToStats (m.set "scur" s) = { mapToStats m with Scur := 0 } := by
  simp only [mapToStats, StatsRow.get, StatsRow.set, h]
  simp
  split_ifs <;> simp [h]

theorem parseInt_empty : parseInt "" = 0 := by decide

theorem mapToStats_delete_stot (m : StatsRow) :
    mapToStats (m.delete "stot") = { mapToStats m with Stot := 0 } := by
  simp only [mapToStats, StatsRow.get, StatsRow.delete]
  simp
  split_ifs <;> simp [parseInt_empty]

theorem mapToStats_delete_rate (m : StatsRow) :
    mapToStats (m.delete "rate") = { mapToStats m with Rate := 0 } := by
  simp only [mapToStats, StatsRow.get, StatsRow.delete]
  simp
  split_ifs <;> simp [parseInt_empty]

theorem mapToStats_delete_bck (m : StatsRow) :
    mapToStats (m.delete "bck") = { mapToStats m with Bck := 0 } := by
  simp only [mapToStats, StatsRow.get, StatsRow.delete]
  simp
  split_ifs <;> simp [parseInt_empty]

theorem mapToStats_delete_scur (m : StatsRow) :
    mapToStats (m.delete "scur") = { mapToStats m with Scur := 0 } := by
  simp only [mapToStats, StatsRow.get, StatsRow.delete]
  simp
  split_ifs <;> simp [parseInt_empty]

theorem mapToStats_fields (m : StatsRow) :
    (mapToStats m).Stot = parseInt (m.get "stot") ∧
    (mapToStats m).Rate = parseInt (m.get "rate") ∧
    (mapToStats m).Bck = parseInt (m.get "bck") ∧
    (mapToStats m).Scur = parseInt (m.get "scur") := by
  simp only [mapToStats]
  split_ifs <;> simp

theorem parseRecords_success (row0 : List String) (rest : List (List String))
    (stats : List Stats) (hok : parseRecords (row0 :: rest) = some ⟨stats, none⟩) :
    stats = rest.map (fun r => mapToStats (rowMapping (extractHeader row0) r)) := by
  match row0, rest, hok with
  | _, [], hok =>
    simp [parseRecords] at hok
    simp [hok]
  | [], row1 :: rest1, hok =>
    rw [parseRecords_cons_cons, rowLoop] at hok
    simp at hok
  | c0 :: cs, row1 :: rest1, hok =>
    rw [parseRecords_cons_cons] at hok
    cases hc : hasHashPrefix c0 with
    | false =>
      rw [rowLoop_zero_nohash c0 cs _ hc] at hok
      simp at hok
    | true =>
      have hlen : (extractHeader (c0 :: cs)).length ≠ 0 := by
        simp [extractHeader_length]
      rw [rowLoop_zero_hash c0 cs _ hc] at hok
      by_cases hall : ∀ r ∈ row1 :: rest1, r.length = (extractHeader (c0 :: cs)).length
      · rw [rowLoop_data_ok _ hlen _ 1 [] (by omega) hall] at hok
        simp only [List.nil_append, Option.some.injEq, ParseResult.mk.injEq, and_true] at hok
        exact hok.symm
      · have hex : ∃ r ∈ row1 :: rest1, r.length ≠ (extractHeader (c0 :: cs)).length := by
          by_contra hno
          exact hall (fun r hr => by_contra (fun hne => hno ⟨r, hr, hne⟩))
        obtain ⟨pre, bad, post, he, hpre, hb⟩ := exists_first_mismatch _ _ hex
        rw [he, rowLoop_data_mismatch _ hlen bad post hb pre 1 [] (by omega) hpre] at hok
        simp at hok

/-! ## The claims -/

/-- C1: on a decoded table whose row 0 has a first cell beginning with `#` and
whose N further rows all have as many cells as row 0, `parseCSV` succeeds with
exactly N records, and record k is `mapToStats` of the mapping built from the
extracted header and row k+1: row order is kept, nothing is dropped, sorted or
merged. -/
theorem parseCSV_rows_in_order (readAll : Decoder) (data : Bytes) (c0 : String)
    (cs : List String) (rest : List (List String))
    (hdec : readAll data = Except.ok ((c0 :: cs) :: rest))
    (hhash : hasHashPrefix c0 = true)
    (hall : ∀ r ∈ rest, r.length = (c0 :: cs).length) :
    ∃ stats : List Stats,
      parseCSV readAll data = some ⟨stats, none⟩ ∧
      stats.length = rest.length ∧
      (∀ k : Nat, k < rest.length →
        stats[k]? = rest[k]?.map
          (fun r => mapToStats (rowMapping (extractHeader (c0 :: cs)) r))) ∧
      stats = rest.map (fun r => mapToStats (rowMapping (extractHeader (c0 :: cs)) r)) := by
  refine ⟨rest.map (fun r => mapToStats (rowMapping (extractHeader (c0 :: cs)) r)),
    ?_, by simp, ?_, rfl⟩
  · rw [parseCSV_ok readAll data _ hdec]
    cases rest with
    | nil => simp [parseRecords]
    | cons row1 rest1 =>
      have hlen : (extractHeader (c0 :: cs)).length ≠ 0 := by
        simp [extractHeader_length]
      rw [parseRecords_cons_cons, rowLoop_zero_hash c0 cs _ hhash,
        rowLoop_data_ok _ hlen _ 1 [] (by omega)
          (fun r hr => by rw [extractHeader_length]; exact hall r hr)]
      simp
  · intro k _
    simp [List.getElem?_map]

theorem parseCSV_rows_in_order_witness :
    hasHashPrefix "# pxname" = true ∧
    (∀ r ∈ [["web", "2"], ["app", "1"], ["web", "2"]],
      r.length = ["# pxname", "type"].length) ∧
    ∃ stats : List Stats,
      parseCSV (fun _ => Except.ok
          [["# pxname", "type"], ["web", "2"], ["app", "1"], ["web", "2"]]) []
        = some ⟨stats, none⟩ ∧
      stats.length = [["web", "2"], ["app", "1"], ["web", "2"]].length ∧
      (∀ k : Nat, k < [["web", "2"], ["app", "1"], ["web", "2"]].length →
        stats[k]? = [["web", "2"], ["app", "1"], ["web", "2"]][k]?.map
          (fun r => mapToStats (rowMapping (extractHeader ["# pxname", "type"]) r))) ∧
      stats = [["web", "2"], ["app", "1"], ["web", "2"]].map
        (fun r => mapToStats (rowMapping (extractHeader ["# pxname", "type"]) r)) :=
  ⟨by decide, by decide,
    parseCSV_rows_in_order (fun _ => Except.ok
      [["# pxname", "type"], ["web", "2"], ["app", "1"], ["web", "2"]]) []
      "# pxname" ["type"] [["web", "2"], ["app", "1"], ["web", "2"]]
      rfl (by decide) (by decide)⟩

/-- C6: on a decoded table of exactly one row, whatever the row holds,
`parseCSV` returns an empty record sequence and no error. -/
theorem parseCSV_single_row (readAll : Decoder) (data : Bytes) (row : List String)
    (hdec : readAll data = Except.ok [row]) :
    parseCSV readAll data = some ⟨[], none⟩ := by
  rw [parseCSV_ok readAll data _ hdec]
  simp [parseRecords]

theorem parseCSV_single_row_witness :
    (fun _ => Except.ok [["no marker", "here"]] : Decoder) [] = Except.ok [["no marker", "here"]] ∧
    parseCSV (fun _ => Except.ok [["no marker", "here"]]) [] = some ⟨[], none⟩ :=
  ⟨rfl, parseCSV_single_row (fun _ => Except.ok [["no marker", "here"]]) []
    ["no marker", "here"] rfl⟩

/-- C7, as the claim states it, fails: with an unmarked row 0 `["pxname"]` and
one data row of the same width, `parseCSV` does not return the record built
from the data row but the error that no header was found. -/
theorem parseCSV_unmarked_header_counterexample :
    hasHashPrefix "pxname" = false ∧
    (∀ r ∈ [["example"]], r.length = ["pxname"].length) ∧
    parseCSV (fun _ => Except.ok [["pxname"], ["example"]]) []
      ≠ some ⟨[["example"]].map (fun r => mapToStats (rowMapping ["pxname"] r)), none⟩ ∧
    parseCSV (fun _ => Except.ok [["pxname"], ["example"]]) []
      = some ⟨[], some "header not found before data rows"⟩ := by
  decide

/-- C7, amended: the comment marker on the header row is required. On a decoded
table with at least one data row whose row 0 has a first cell that does not
begin with `#`, `parseCSV` returns the error "header not found before data
rows" and no records, whatever the data rows are. -/
theorem parseCSV_unmarked_header_error (readAll : Decoder) (data : Bytes) (c0 : String)
    (cs row1 : List String) (rest : List (List String))
    (hdec : readAll data = Except.ok ((c0 :: cs) :: row1 :: rest))
    (hhash : hasHashPrefix c0 = false) :
    parseCSV readAll data = some ⟨[], some "header not found before data rows"⟩ := by
  rw [parseCSV_ok readAll data _ hdec, parseRecords_cons_cons,
    rowLoop_zero_nohash c0 cs _ hhash]

theorem parseCSV_unmarked_header_error_witness :
    hasHashPrefix "pxname" = false ∧
    parseCSV (fun _ => Except.ok
        [["pxname", "svname"], ["web", "FRONTEND"], ["app", "BACKEND"]]) []
      = some ⟨[], some "header not found before data rows"⟩ :=
  ⟨by decide,
    parseCSV_unmarked_header_error (fun _ => Except.ok
      [["pxname", "svname"], ["web", "FRONTEND"], ["app", "BACKEND"]]) []
      "pxname" ["svname"] ["web", "FRONTEND"] [["app", "BACKEND"]] rfl (by decide)⟩

/-- C10: on a decoded table with zero rows, `parseCSV` returns the error "no
records found in CSV data" and no records. -/
theorem parseCSV_zero_rows (readAll : Decoder) (data : Bytes)
    (hdec : readAll data = Except.ok []) :
    parseCSV readAll data = some ⟨[], some "no records found in CSV data"⟩ := by
  rw [parseCSV_ok readAll data _ hdec]
  simp [parseRecords]

theorem parseCSV_zero_rows_witness :
    (fun _ => Except.ok [] : Decoder) [] = Except.ok [] ∧
    parseCSV (fun _ => Except.ok []) [] = some ⟨[], some "no records found in CSV data"⟩ :=
  ⟨rfl, parseCSV_zero_rows (fun _ => Except.ok []) [] rfl⟩

/-- C3: the type-code mapping of `mapToStats` is total. `Type` is "FRONTEND",
"BACKEND", "SERVER", "LISTENER" when `m["type"]` is exactly "0", "1", "2",
"3", and "UNKNOWN" for every other string (among them "", "4", "abc", " 0",
"00") and when the column is absent; it is always one of the five names. -/
theorem mapToStats_type_total (m : StatsRow) :
    (m.get "type" = "0" → (mapToStats m).Type_ = "FRONTEND") ∧
    (m.get "type" = "1" → (mapToStats m).Type_ = "BACKEND") ∧
    (m.get "type" = "2" → (mapToStats m).Type_ = "SERVER") ∧
    (m.get "type" = "3" → (mapToStats m).Type_ = "LISTENER") ∧
    (m.get "type" ∉ ["0", "1", "2", "3"] → (mapToStats m).Type_ = "UNKNOWN") ∧
    (m.get "type" ∈ ["", "4", "abc", " 0", "00"] → (mapToStats m).Type_ = "UNKNOWN") ∧
    (m "type" = none → (mapToStats m).Type_ = "UNKNOWN") ∧
    (mapToStats m).Type_ ∈ ["FRONTEND", "BACKEND", "SERVER", "LISTENER", "UNKNOWN"] := by
  have hother : m.get "type" ∉ ["0", "1", "2", "3"] → (mapToStats m).Type_ = "UNKNOWN" := by
    intro h
    simp only [List.mem_cons, List.mem_singleton, List.not_mem_nil, or_false, not_or] at h
    simp [mapToStats, h.1, h.2.1, h.2.2.1, h.2.2.2]
  refine ⟨?_, ?_, ?_, ?_, hother, ?_, ?_, ?_⟩
  · intro h; simp [mapToStats, h]
  · intro h; simp [mapToStats, h]
  · intro h; simp [mapToStats, h]
  · intro h; simp [mapToStats, h]
  · intro h
    apply hother
    simp only [List.mem_cons, List.mem_singleton, List.not_mem_nil, or_false] at h
    rcases h with h | h | h | h | h <;> rw [h] <;> decide
  · intro h
    apply hother
    have : m.get "type" = "" := by simp [StatsRow.get, h]
    rw [this]; decide
  · simp only [mapToStats]
    split_ifs <;> simp

theorem mapToStats_type_total_witness :
    (mapToStats (StatsRow.empty.set "type" "2")).Type_ = "SERVER" ∧
    (mapToStats (StatsRow.empty.set "type" " 0")).Type_ = "UNKNOWN" ∧
    (mapToStats (StatsRow.empty.set "pxname" "web")).Type_ = "UNKNOWN" :=
  ⟨(mapToStats_type_total (StatsRow.empty.set "type" "2")).2.2.1 (by decide),
    (mapToStats_type_total (StatsRow.empty.set "type" " 0")).2.2.2.2.2.1 (by decide),
    (mapToStats_type_total (StatsRow.empty.set "pxname" "web")).2.2.2.2.2.2.1 (by decide)⟩

/-- C4: numeric coercion never fails and falls back to zero. For a string `s`
that is not a base-10 integer literal, `parseInt s = 0`; a row mapping whose
stot, rate, bck or scur column is absent or holds `s` gets 0 in that field;
and entering `s` for, or deleting, one of these columns changes that field only
(the record is the one of the unchanged mapping with that field set to 0). -/
theorem parseInt_fallback_zero (s : String) (hs : isIntLiteral s = false) (m : StatsRow) :
    parseInt s = 0 ∧
    (m "stot" = none ∨ m "stot" = some s → (mapToStats m).Stot = 0) ∧
    (m "rate" = none ∨ m "rate" = some s → (mapToStats m).Rate = 0) ∧
    (m "bck" = none ∨ m "bck" = some s → (mapToStats m).Bck = 0) ∧
    (m "scur" = none ∨ m "scur" = some s → (mapToStats m).Scur = 0) ∧
    mapToStats (m.set "stot" s) = { mapToStats m with Stot := 0 } ∧
    mapToStats (m.set "rate" s) = { mapToStats m with Rate := 0 } ∧
    mapToStats (m.set "bck" s) = { mapToStats m with Bck := 0 } ∧
    mapToStats (m.set "scur" s) = { mapToStats m with Scur := 0 } ∧
    mapToStats (m.delete "stot") = { mapToStats m with Stot := 0 } ∧
    mapToStats (m.delete "rate") = { mapToStats m with Rate := 0 } ∧
    mapToStats (m.delete "bck") = { mapToStats m with Bck := 0 } ∧
    mapToStats (m.delete "scur") = { mapToStats m with Scur := 0 } := by
  have h0 : parseInt s = 0 := parseInt_not_literal s hs
  have hget : ∀ k : String, m k = none ∨ m k = some s → parseInt (m.get k) = 0 := by
    intro k hk
    rcases hk with hk | hk
    · simp [StatsRow.get, hk, parseInt_empty]
    · simp [StatsRow.get, hk, h0]
  obtain ⟨f1, f2, f3, f4⟩ := mapToStats_fields m
  exact ⟨h0,
    fun h => f1.trans (hget _ h), fun h => f2.trans (hget _ h),
    fun h => f3.trans (hget _ h), fun h => f4.trans (hget _ h),
    mapToStats_set_stot m s h0, mapToStats_set_rate m s h0,
    mapToStats_set_bck m s h0, mapToStats_set_scur m s h0,
    mapToStats_delete_stot m, mapToStats_delete_rate m,
    mapToStats_delete_bck m, mapToStats_delete_scur m⟩

theorem parseInt_fallback_zero_witness :
    (isIntLiteral "" = false ∧ parseInt "" = 0) ∧
    (isIntLiteral "abc" = false ∧ parseInt "abc" = 0) ∧
    (isIntLiteral "1.5" = false ∧ parseInt "1.5" = 0) ∧
    (isIntLiteral "   0" = false ∧ parseInt "   0" = 0) ∧
    mapToStats (((StatsRow.empty.set "pxname" "web").set "rate" "7").set "scur" "   0")
      = { mapToStats ((StatsRow.empty.set "pxname" "web").set "rate" "7") with Scur := 0 } :=
  ⟨⟨by decide, (parseInt_fallback_zero "" (by decide) StatsRow.empty).1⟩,
    ⟨by decide, (parseInt_fallback_zero "abc" (by decide) StatsRow.empty).1⟩,
    ⟨by decide, (parseInt_fallback_zero "1.5" (by decide) StatsRow.empty).1⟩,
    ⟨by decide, (parseInt_fallback_zero "   0" (by decide) StatsRow.empty).1⟩,
    (parseInt_fallback_zero "   0" (by decide)
      ((StatsRow.empty.set "pxname" "web").set "rate" "7")).2.2.2.2.2.2.2.2.1⟩

/-- C5, as the claim states it, fails: "9223372036854775808" is an optional
sign followed by decimal digits and denotes 2^63, yet `parseInt` returns 0,
since the value does not fit Go's `int`. -/
theorem parseInt_literal_counterexample :
    isIntLiteral "9223372036854775808" = true ∧
    literalValue "9223372036854775808" = 9223372036854775808 ∧
    parseInt "9223372036854775808" = 0 ∧
    parseInt "9223372036854775808" ≠ literalValue "9223372036854775808" := by
  decide

/-- C5, amended: for a base-10 integer literal `s` (an optional sign followed
by one or more decimal digits) whose value fits Go's `int`, that is lies
between `minInt = -2^63` and `maxInt = 2^63 - 1`, `parseInt s` is exactly the
integer that `s` denotes, negative literals included; for a literal outside
that range `parseInt s` is 0. -/
theorem parseInt_literal_exact (s : String) (hs : isIntLiteral s = true) :
    (minInt ≤ literalValue s → literalValue s ≤ maxInt → parseInt s = literalValue s) ∧
    (literalValue s < minInt ∨ maxInt < literalValue s → parseInt s = 0) := by
  rw [parseInt_literal s hs]
  constructor
  · intro h1 h2
    rw [if_pos ⟨h1, h2⟩]
  · intro h
    rw [if_neg]
    rintro ⟨h1, h2⟩
    rcases h with h | h
    · exact absurd h1 (not_le.mpr h)
    · exact absurd h2 (not_le.mpr h)

theorem parseInt_literal_exact_witness :
    isIntLiteral "-1" = true ∧ parseInt "-1" = literalValue "-1" ∧
    literalValue "-1" = -1 ∧
    isIntLiteral "-9223372036854775809" = true ∧ parseInt "-9223372036854775809" = 0 :=
  ⟨by decide, (parseInt_literal_exact "-1" (by decide)).1 (by decide) (by decide),
    by decide, by decide,
    (parseInt_literal_exact "-9223372036854775809" (by decide)).2 (Or.inl (by decide))⟩

/-- C8, as the claim states it, fails: the table with header
`# pxname,rate,scur` and the data row `web,-1,-2` parses without error into one
record whose `Rate` is -1 and whose `Scur` is -2. -/
theorem parseCSV_negative_rate_counterexample :
    ∃ stats : List Stats,
      parseCSV (fun _ => Except.ok [["# pxname", "rate", "scur"], ["web", "-1", "-2"]]) []
        = some ⟨stats, none⟩ ∧
      ¬ (∀ s ∈ stats, 0 ≤ s.Rate ∧ 0 ≤ s.Scur) :=
  ⟨[⟨"web", "", 0, "UNKNOWN", -1, 0, "", -2⟩], by decide, by decide⟩

/-- C8, amended: for every input on which parsing succeeds, every returned
record is `mapToStats` of the mapping of one of the data rows, and it has
`Rate >= 0` when the value that mapping holds for the column rate ("" when
absent) does not begin with `-`, and `Scur >= 0` when the value for the column
scur does not begin with `-`. Nothing is promised about the sign of a field
whose cell begins with `-`. -/
theorem parseCSV_rate_scur_nonneg (readAll : Decoder) (data : Bytes) (row0 : List String)
    (rest : List (List String)) (stats : List Stats)
    (hdec : readAll data = Except.ok (row0 :: rest))
    (hok : parseCSV readAll data = some ⟨stats, none⟩) :
    ∀ s ∈ stats, ∃ r ∈ rest,
      s = mapToStats (rowMapping (extractHeader row0) r) ∧
      (hasMinusPrefix ((rowMapping (extractHeader row0) r).get "rate") = false → 0 ≤ s.Rate) ∧
      (hasMinusPrefix ((rowMapping (extractHeader row0) r).get "scur") = false → 0 ≤ s.Scur) := by
  rw [parseCSV_ok readAll data _ hdec] at hok
  have hstats := parseRecords_success row0 rest stats hok
  intro s hs
  rw [hstats] at hs
  obtain ⟨r, hr, rfl⟩ := List.mem_map.mp hs
  obtain ⟨_, f2, _, f4⟩ := mapToStats_fields (rowMapping (extractHeader row0) r)
  refine ⟨r, hr, rfl, ?_, ?_⟩
  · intro h; rw [f2]; exact parseInt_nonneg _ h
  · intro h; rw [f4]; exact parseInt_nonneg _ h

theorem parseCSV_rate_scur_nonneg_witness :
    parseCSV (fun _ => Except.ok [["# pxname", "rate", "scur"], ["web", "2", "-2"]]) []
      = some ⟨[⟨"web", "", 0, "UNKNOWN", 2, 0, "", -2⟩], none⟩ ∧
    ∀ s ∈ [(⟨"web", "", 0, "UNKNOWN", 2, 0, "", -2⟩ : Stats)], ∃ r ∈ [["web", "2", "-2"]],
      s = mapToStats (rowMapping (extractHeader ["# pxname", "rate", "scur"]) r) ∧
      (hasMinusPrefix ((rowMapping (extractHeader ["# pxname", "rate", "scur"]) r).get "rate")
        = false → 0 ≤ s.Rate) ∧
      (hasMinusPrefix ((rowMapping (extractHeader ["# pxname", "rate", "scur"]) r).get "scur")
        = false → 0 ≤ s.Scur) :=
  ⟨by decide,
    parseCSV_rate_scur_nonneg
      (fun _ => Except.ok [["# pxname", "rate", "scur"], ["web", "2", "-2"]]) []
      ["# pxname", "rate", "scur"] [["web", "2", "-2"]]
      [⟨"web", "", 0, "UNKNOWN", 2, 0, "", -2⟩] rfl (by decide)⟩

/-- C9: parsing is all-or-nothing. On every input whose decoded rows each have
at least one cell (as the CSV decoder yields them), `parseCSV` returns a pair
that is either a record sequence with no error or an error with no records,
never records together with an error; in particular, when a data row fails the
column-count check after valid rows, the records built from those rows are
not returned. -/
theorem parseCSV_all_or_nothing (readAll : Decoder) (data : Bytes)
    (hrows : ∀ records, readAll data = Except.ok records → ∀ row ∈ records, row ≠ []) :
    (∃ r : ParseResult, parseCSV readAll data = some r ∧
      (r.err = none ∨ (r.err.isSome = true ∧ r.status = []))) ∧
    (∀ (c0 : String) (cs : List String) (pre : List (List String)) (bad : List String)
        (post : List (List String)),
      readAll data = Except.ok ((c0 :: cs) :: (pre ++ bad :: post)) →
      hasHashPrefix c0 = true →
      (∀ r ∈ pre, r.length = (c0 :: cs).length) →
      bad.length ≠ (c0 :: cs).length →
      ∃ e : String, parseCSV readAll data = some ⟨[], some e⟩) := by
  constructor
  · cases hd : readAll data with
    | error e => exact ⟨⟨[], some e⟩, by simp [parseCSV, hd], Or.inr ⟨rfl, rfl⟩⟩
    | ok records =>
      rw [parseCSV_ok readAll data _ hd]
      exact parseRecords_total records (hrows records hd)
  · intro c0 cs pre bad post hd hc hpre hb
    have hlen : (extractHeader (c0 :: cs)).length ≠ 0 := by
      simp [extractHeader_length]
    have hne : pre ++ bad :: post ≠ [] := by simp
    obtain ⟨row1, rest1, hrest⟩ := List.exists_cons_of_ne_nil hne
    refine ⟨mismatchMsg (1 + pre.length), ?_⟩
    rw [parseCSV_ok readAll data _ hd, hrest, parseRecords_cons_cons, ← hrest,
      rowLoop_zero_hash c0 cs _ hc,
      rowLoop_data_mismatch _ hlen bad post (by rw [extractHeader_length]; exact hb) pre 1 []
        (by omega) (fun r hr => by rw [extractHeader_length]; exact hpre r hr)]

theorem parseCSV_all_or_nothing_witness :
    (∀ records,
      (fun _ => Except.ok [["# pxname", "type"], ["web", "2"], ["app"]] : Decoder) []
        = Except.ok records → ∀ row ∈ records, row ≠ []) ∧
    parseCSV (fun _ => Except.ok [["# pxname", "type"], ["web", "2"], ["app"]]) []
      = some ⟨[], some "mismatched number of columns in record 2"⟩ ∧
    ((∃ r : ParseResult,
      parseCSV (fun _ => Except.ok [["# pxname", "type"], ["web", "2"], ["app"]]) [] = some r ∧
      (r.err = none ∨ (r.err.isSome = true ∧ r.status = []))) ∧
    (∀ (c0 : String) (cs : List String) (pre : List (List String)) (bad : List String)
        (post : List (List String)),
      (fun _ => Except.ok [["# pxname", "type"], ["web", "2"], ["app"]] : Decoder) []
        = Except.ok ((c0 :: cs) :: (pre ++ bad :: post)) →
      hasHashPrefix c0 = true →
      (∀ r ∈ pre, r.length = (c0 :: cs).length) →
      bad.length ≠ (c0 :: cs).length →
      ∃ e : String,
        parseCSV (fun _ => Except.ok [["# pxname", "type"], ["web", "2"], ["app"]]) []
          = some ⟨[], some e⟩)) :=
  have hrows : ∀ records,
      (fun _ => Except.ok [["# pxname", "type"], ["web", "2"], ["app"]] : Decoder) []
        = Except.ok records → ∀ row ∈ records, row ≠ [] := by
    intro records h
    injection h with h
    subst h
    decide
  ⟨hrows, by decide,
    parseCSV_all_or_nothing
      (fun _ => Except.ok [["# pxname", "type"], ["web", "2"], ["app"]]) [] hrows⟩

/-! ## Lemmas on the configuration and on `fetch` -/

theorem Sprintf_url (h p q : String) :
    Sprintf "http://%s:%s%s;csv" [h, p, q] = "http://" ++ h ++ ":" ++ p ++ q ++ ";csv" := by
  simp [Sprintf, sprintfLoop]
  apply String.ext
  simp [String.data_push, String.data_append]

theorem applyOptions_append (pre post : List ConfigOption) :
    ∀ c : haproxyClient, applyOptions (pre ++ post) c = applyOptions post (applyOptions pre c) := by
  induction pre with
  | nil => intro c; rfl
  | cons o pre ih => intro c; exact ih (o c)

theorem applyOptions_preserves {α : Type} (f : haproxyClient → α) (post : List ConfigOption) :
    (∀ o ∈ post, ∀ x : haproxyClient, f (o x) = f x) →
    ∀ c : haproxyClient, f (applyOptions post c) = f c := by
  induction post with
  | nil => intro _ c; rfl
  | cons o post ih =>
    intro h c
    rw [applyOptions, ih (fun o2 ho2 => h o2 (List.mem_cons_of_mem _ ho2)),
      h o (List.mem_cons_self _ _)]

theorem applyOptions_last {α : Type} (f : haproxyClient → α) (opt : ConfigOption) (a : α)
    (hopt : ∀ x : haproxyClient, f (opt x) = a) (pre post : List ConfigOption)
    (hpost : ∀ o ∈ post, ∀ x : haproxyClient, f (o x) = f x) (c : haproxyClient) :
    f (applyOptions (pre ++ opt :: post) c) = a := by
  rw [applyOptions_append, applyOptions, applyOptions_preserves f post hpost, hopt]

/-! ## The claims on `mapToStats`, the configuration and `fetch` -/

/-- C11: `mapToStats` copies the string fields verbatim. `Pxname`, `Svname` and
`Status` are `m["pxname"]`, `m["svname"]` and `m["status"]`: the very string
the mapping holds, without trimming, case change or validation, and the empty
string when the column is absent. -/
theorem mapToStats_strings_verbatim (m : StatsRow) :
    ((mapToStats m).Pxname = m.get "pxname" ∧
      (mapToStats m).Svname = m.get "svname" ∧
      (mapToStats m).Status = m.get "status") ∧
    (∀ v : String, m "pxname" = some v → (mapToStats m).Pxname = v) ∧
    (∀ v : String, m "svname" = some v → (mapToStats m).Svname = v) ∧
    (∀ v : String, m "status" = some v → (mapToStats m).Status = v) ∧
    (m "pxname" = none → (mapToStats m).Pxname = "") ∧
    (m "svname" = none → (mapToStats m).Svname = "") ∧
    (m "status" = none → (mapToStats m).Status = "") := by
  have hf : (mapToStats m).Pxname = m.get "pxname" ∧
      (mapToStats m).Svname = m.get "svname" ∧
      (mapToStats m).Status = m.get "status" := by
    simp only [mapToStats]
    split_ifs <;> simp
  refine ⟨hf, ?_, ?_, ?_, ?_, ?_, ?_⟩
  · intro v h; rw [hf.1]; simp [StatsRow.get, h]
  · intro v h; rw [hf.2.1]; simp [StatsRow.get, h]
  · intro v h; rw [hf.2.2]; simp [StatsRow.get, h]
  · intro h; rw [hf.1]; simp [StatsRow.get, h]
  · intro h; rw [hf.2.1]; simp [StatsRow.get, h]
  · intro h; rw [hf.2.2]; simp [StatsRow.get, h]

theorem mapToStats_strings_verbatim_witness :
    (mapToStats ((StatsRow.empty.set "pxname" "  Web-01 ").set "status" "no check")).Pxname
      = "  Web-01 " ∧
    (mapToStats ((StatsRow.empty.set "pxname" "  Web-01 ").set "status" "no check")).Status
      = "no check" ∧
    (mapToStats ((StatsRow.empty.set "pxname" "  Web-01 ").set "status" "no check")).Svname
      = "" :=
  ⟨(mapToStats_strings_verbatim
      ((StatsRow.empty.set "pxname" "  Web-01 ").set "status" "no check")).2.1 _ (by decide),
    (mapToStats_strings_verbatim
      ((StatsRow.empty.set "pxname" "  Web-01 ").set "status" "no check")).2.2.2.1 _ (by decide),
    (mapToStats_strings_verbatim
      ((StatsRow.empty.set "pxname" "  Web-01 ").set "status" "no check")).2.2.2.2.2.1
      (by decide)⟩

/-- C12: the URL that `fetch` requests is the concatenation
`"http://" + host + ":" + port + path + ";csv"` of the fields of the client
configuration, and with no options given to `Status` it is
`"http://127.0.0.1:9999/haproxy?stats;csv"`. -/
theorem fetch_url (c : haproxyClient) (defaultHTTPClient : Client) :
    c.url = "http://" ++ c.host ++ ":" ++ c.port ++ c.path ++ ";csv" ∧
    c.fetch = c.httpClient.roundTrip
      ("http://" ++ c.host ++ ":" ++ c.port ++ c.path ++ ";csv") ∧
    (applyOptions [] (defaultConfig defaultHTTPClient)).url
      = "http://127.0.0.1:9999/haproxy?stats;csv" ∧
    (applyOptions [] (defaultConfig defaultHTTPClient)).fetch
      = defaultHTTPClient.roundTrip "http://127.0.0.1:9999/haproxy?stats;csv" := by
  have hurl : ∀ x : haproxyClient,
      x.url = "http://" ++ x.host ++ ":" ++ x.port ++ x.path ++ ";csv" :=
    fun x => Sprintf_url x.host x.port x.path
  have hdef : (applyOptions [] (defaultConfig defaultHTTPClient)).url
      = "http://127.0.0.1:9999/haproxy?stats;csv" := by
    rw [hurl]; rfl
  refine ⟨hurl c, ?_, hdef, ?_⟩
  · rw [haproxyClient.fetch, hurl]
  · rw [haproxyClient.fetch, hdef]; rfl

/-- C16: `mapToStats` depends only on the eight columns pxname, svname, stot,
type, rate, bck, status and scur: two row mappings that agree on these keys
(absence included) give equal records, whatever else they hold. -/
theorem mapToStats_eight_columns (m1 m2 : StatsRow)
    (h : ∀ k ∈ ["pxname", "svname", "stot", "type", "rate", "bck", "status", "scur"],
      m1 k = m2 k) :
    mapToStats m1 = mapToStats m2 := by
  have h1 : m1 "pxname" = m2 "pxname" := h _ (by simp)
  have h2 : m1 "svname" = m2 "svname" := h _ (by simp)
  have h3 : m1 "stot" = m2 "stot" := h _ (by simp)
  have h4 : m1 "type" = m2 "type" := h _ (by simp)
  have h5 : m1 "rate" = m2 "rate" := h _ (by simp)
  have h6 : m1 "bck" = m2 "bck" := h _ (by simp)
  have h7 : m1 "status" = m2 "status" := h _ (by simp)
  have h8 : m1 "scur" = m2 "scur" := h _ (by simp)
  simp only [mapToStats, StatsRow.get, h1, h2, h3, h4, h5, h6, h7, h8]

theorem mapToStats_eight_columns_witness :
    (∀ k ∈ ["pxname", "svname", "stot", "type", "rate", "bck", "status", "scur"],
      ((StatsRow.empty.set "pxname" "web").set "qcur" "5") k
        = (((StatsRow.empty.set "smax" "9").set "pxname" "web").set "qcur" "7") k) ∧
    ((StatsRow.empty.set "pxname" "web").set "qcur" "5") "qcur"
      ≠ (((StatsRow.empty.set "smax" "9").set "pxname" "web").set "qcur" "7") "qcur" ∧
    mapToStats ((StatsRow.empty.set "pxname" "web").set "qcur" "5")
      = mapToStats (((StatsRow.empty.set "smax" "9").set "pxname" "web").set "qcur" "7") :=
  ⟨by decide, by decide,
    mapToStats_eight_columns ((StatsRow.empty.set "pxname" "web").set "qcur" "5")
      (((StatsRow.empty.set "smax" "9").set "pxname" "web").set "qcur" "7") (by decide)⟩

/-- C17: each configuration option changes its own field only. `Host(v)`
applied to `c` has `host = v` and the `port`, `path` and `httpClient` of `c`;
`Port(v)` changes `port` only, `Path(v)` changes `path` only and
`HTTPClient(client)` changes `httpClient` only. Hence in the
option loop of `Status` the last option given for a field decides it: after
`Host(v)`, options that leave `host` alone (such as `Port`, `Path` and
`HTTPClient`) keep `host = v`, and likewise for `port` and `path`. -/
theorem options_frame (c : haproxyClient) (v : String) (client : Client) :
    ((HTTPClient client c).httpClient = client ∧ (HTTPClient client c).host = c.host ∧
      (HTTPClient client c).port = c.port ∧ (HTTPClient client c).path = c.path) ∧
    ((Host v c).host = v ∧ (Host v c).port = c.port ∧ (Host v c).path = c.path ∧
      (Host v c).httpClient = c.httpClient) ∧
    ((Port v c).port = v ∧ (Port v c).host = c.host ∧ (Port v c).path = c.path ∧
      (Port v c).httpClient = c.httpClient) ∧
    ((Path v c).path = v ∧ (Path v c).host = c.host ∧ (Path v c).port = c.port ∧
      (Path v c).httpClient = c.httpClient) ∧
    (∀ pre post : List ConfigOption, (∀ o ∈ post, ∀ x : haproxyClient, (o x).host = x.host) →
      (applyOptions (pre ++ Host v :: post) c).host = v) ∧
    (∀ pre post : List ConfigOption, (∀ o ∈ post, ∀ x : haproxyClient, (o x).port = x.port) →
      (applyOptions (pre ++ Port v :: post) c).port = v) ∧
    (∀ pre post : List ConfigOption, (∀ o ∈ post, ∀ x : haproxyClient, (o x).path = x.path) →
      (applyOptions (pre ++ Path v :: post) c).path = v) :=
  ⟨⟨rfl, rfl, rfl, rfl⟩, ⟨rfl, rfl, rfl, rfl⟩, ⟨rfl, rfl, rfl, rfl⟩, ⟨rfl, rfl, rfl, rfl⟩,
    fun pre post h => applyOptions_last (fun x => x.host) (Host v) v (fun _ => rfl) pre post h c,
    fun pre post h => applyOptions_last (fun x => x.port) (Port v) v (fun _ => rfl) pre post h c,
    fun pre post h => applyOptions_last (fun x => x.path) (Path v) v (fun _ => rfl) pre post h c⟩

theorem options_frame_witness :
    (∀ o ∈ [Port "81", Path "/stats"], ∀ x : haproxyClient, (o x).host = x.host) ∧
    (applyOptions ([Host "10.0.0.1", Port "80"] ++ Host "10.0.0.2" :: [Port "81", Path "/stats"])
      (defaultConfig ⟨fun _ => Except.ok []⟩)).host = "10.0.0.2" :=
  have hpost : ∀ o ∈ [Port "81", Path "/stats"], ∀ x : haproxyClient, (o x).host = x.host := by
    intro o ho x
    simp only [List.mem_cons, List.mem_singleton, List.not_mem_nil, or_false] at ho
    rcases ho with rfl | rfl <;> rfl
  ⟨hpost,
    (options_frame (defaultConfig ⟨fun _ => Except.ok []⟩) "10.0.0.2"
      ⟨fun _ => Except.ok []⟩).2.2.2.2.1
      [Host "10.0.0.1", Port "80"] [Port "81", Path "/stats"] hpost⟩

/-! ## Lemmas on header extraction and on the row mapping -/

theorem headerLoop_succ (record : List String) :
    ∀ (k : Nat) (header : List String), headerLoop (k + 1) record header = header ++ record := by
  induction record with
  | nil => intro k header; simp [headerLoop]
  | cons col rest ih =>
    intro k header
    rw [headerLoop]
    simp only [Nat.add_one_ne_zero, if_false]
    rw [ih]
    simp

theorem extractHeader_cons (c0 : String) (cs : List String) :
    extractHeader (c0 :: cs) = trimSpace (trimHashPrefix c0) :: cs := by
  rw [extractHeader, headerLoop]
  simp only [if_true]
  rw [headerLoop_succ]
  simp

theorem trimSpace_spec (s : String) :
    ∃ pre post : List Char,
      s.data = pre ++ (trimSpace s).data ++ post ∧
      (∀ c ∈ pre, isSpace c = true) ∧ (∀ c ∈ post, isSpace c = true) ∧
      (∀ c, (trimSpace s).data.head? = some c → isSpace c = false) ∧
      (∀ c, (trimSpace s).data.getLast? = some c → isSpace c = false) := by
  have hsplit : s.data = s.data.takeWhile isSpace ++ s.data.dropWhile isSpace :=
    (List.takeWhile_append_dropWhile isSpace s.data).symm
  generalize hd : s.data.dropWhile isSpace = d at hsplit
  have hdsplit : d = (d.reverse.dropWhile isSpace).reverse
      ++ (d.reverse.takeWhile isSpace).reverse := by
    rw [← List.reverse_append, List.takeWhile_append_dropWhile, List.reverse_reverse]
  have ht : (trimSpace s).data = (d.reverse.dropWhile isSpace).reverse := by
    simp [trimSpace, hd]
  refine ⟨s.data.takeWhile isSpace, (d.reverse.takeWhile isSpace).reverse, ?_, ?_, ?_, ?_, ?_⟩
  · rw [ht, List.append_assoc, ← hdsplit]; exact hsplit
  · intro c hc; exact List.mem_takeWhile_imp hc
  · intro c hc; exact List.mem_takeWhile_imp (List.mem_reverse.mp hc)
  · intro c hc
    rw [ht] at hc
    have hne : (d.reverse.dropWhile isSpace).reverse ≠ [] := by
      intro h0; rw [h0] at hc; simp at hc
    have hhead : d.head? = some c := by
      rw [hdsplit, List.head?_append_of_ne_nil _ hne]; exact hc
    have := List.head?_dropWhile_not isSpace s.data
    rw [hd, hhead] at this
    exact this
  · intro c hc
    rw [ht, List.getLast?_reverse] at hc
    have := List.head?_dropWhile_not isSpace d.reverse
    rw [hc] at this
    exact this

theorem foldl_set_not_mem (c : String) :
    ∀ (zs : List (String × String)) (m : StatsRow), (∀ p ∈ zs, p.1 ≠ c) →
      (zs.foldl (fun m p => m.set p.1 p.2) m) c = m c := by
  intro zs
  induction zs with
  | nil => intro m _; rfl
  | cons z zs ih =>
    intro m h
    rw [List.foldl_cons, ih _ (fun p hp => h p (List.mem_cons_of_mem _ hp))]
    have hz : z.1 ≠ c := h z (List.mem_cons_self _ _)
    simp [StatsRow.set, Ne.symm hz]

theorem foldl_set_last (c v : String) :
    ∀ (header record : List String) (m : StatsRow) (j : Nat),
      header[j]? = some c → record[j]? = some v →
      (∀ j2, j < j2 → header[j2]? ≠ some c) →
      ((header.zip record).foldl (fun m p => m.set p.1 p.2) m) c = some v := by
  intro header
  induction header with
  | nil => intro record m j hc; simp at hc
  | cons h hs ih =>
    intro record m j hc hv hlast
    cases record with
    | nil => simp at hv
    | cons r rs =>
      rw [List.zip_cons_cons, List.foldl_cons]
      cases j with
      | zero =>
        simp only [List.getElem?_cons_zero, Option.some.injEq] at hc hv
        subst hc; subst hv
        rw [foldl_set_not_mem]
        · simp [StatsRow.set]
        · intro p hp hpc
          have hmem : p.1 ∈ hs := (List.of_mem_zip hp).1
          obtain ⟨n, hn, hget⟩ := List.getElem_of_mem hmem
          apply hlast (n + 1) (by omega)
          rw [List.getElem?_cons_succ, List.getElem?_eq_getElem hn, hget, hpc]
      | succ j =>
        simp only [List.getElem?_cons_succ] at hc hv
        apply ih rs _ j hc hv
        intro j2 hj2
        have := hlast (j2 + 1) (by omega)
        simpa using this

theorem statsRowLoop_total (record : List String) :
    ∀ (header : List String) (j : Nat) (m : StatsRow), j + header.length ≤ record.length →
      ∃ m2, statsRowLoop record j header m = some m2 := by
  intro header j m h
  exact ⟨_, statsRowLoop_eq record header j m h⟩

theorem trimHashPrefix_of_hash (c0 : String) (h : hasHashPrefix c0 = true) :
    ∃ rest : List Char, c0.data = '#' :: rest ∧ trimHashPrefix c0 = String.mk rest := by
  obtain ⟨l⟩ := c0
  cases l with
  | nil => simp [hasHashPrefix] at h
  | cons c rest =>
    have hc : c = '#' := by simpa [hasHashPrefix] using h
    subst hc
    exact ⟨rest, rfl, by simp [trimHashPrefix]⟩

/-! ## The claims on header extraction, the row mapping and indexing -/

/-- C13: header extraction touches the first cell only. For a row 0 whose first
cell begins with `#`, the extracted header is as long as row 0; its first name
is the first cell with exactly one leading `#` removed and then the leading and
trailing white space trimmed (what is cut off on either side is white space,
and the name neither begins nor ends with white space); every other name is the
corresponding cell, unchanged. This is the header the row loop goes on with. -/
theorem extractHeader_first_cell_only (c0 : String) (cs : List String)
    (h : hasHashPrefix c0 = true) :
    (extractHeader (c0 :: cs)).length = (c0 :: cs).length ∧
    (∃ rest : List Char, c0.data = '#' :: rest ∧
      extractHeader (c0 :: cs) = trimSpace (String.mk rest) :: cs ∧
      ∃ pre post : List Char,
        rest = pre ++ (trimSpace (String.mk rest)).data ++ post ∧
        (∀ c ∈ pre, isSpace c = true) ∧ (∀ c ∈ post, isSpace c = true) ∧
        (∀ c, (trimSpace (String.mk rest)).data.head? = some c → isSpace c = false) ∧
        (∀ c, (trimSpace (String.mk rest)).data.getLast? = some c → isSpace c = false)) ∧
    (∀ j : Nat, (extractHeader (c0 :: cs))[j + 1]? = cs[j]?) ∧
    (∀ rows : List (List String),
      rowLoop 0 ((c0 :: cs) :: rows) [] [] = rowLoop 1 rows (extractHeader (c0 :: cs)) []) := by
  obtain ⟨rest, hdata, htrim⟩ := trimHashPrefix_of_hash c0 h
  have hcons := extractHeader_cons c0 cs
  refine ⟨extractHeader_length _, ⟨rest, hdata, ?_, trimSpace_spec (String.mk rest)⟩, ?_, ?_⟩
  · rw [hcons, htrim]
  · intro j; rw [hcons, List.getElem?_cons_succ]
  · intro rows; exact rowLoop_zero_hash c0 cs rows h

theorem extractHeader_first_cell_only_witness :
    hasHashPrefix "# pxname" = true ∧
    extractHeader ["# pxname", " svname ", "#type"] = ["pxname", " svname ", "#type"] ∧
    extractHeader ["## pxname", "x"] = ["# pxname", "x"] ∧
    ((extractHeader ["# pxname", " svname ", "#type"]).length
        = ["# pxname", " svname ", "#type"].length ∧
      (∃ rest : List Char, "# pxname".data = '#' :: rest ∧
        extractHeader ["# pxname", " svname ", "#type"]
          = trimSpace (String.mk rest) :: [" svname ", "#type"] ∧
        ∃ pre post : List Char,
          rest = pre ++ (trimSpace (String.mk rest)).data ++ post ∧
          (∀ c ∈ pre, isSpace c = true) ∧ (∀ c ∈ post, isSpace c = true) ∧
          (∀ c, (trimSpace (String.mk rest)).data.head? = some c → isSpace c = false) ∧
          (∀ c, (trimSpace (String.mk rest)).data.getLast? = some c → isSpace c = false)) ∧
      (∀ j : Nat, (extractHeader ["# pxname", " svname ", "#type"])[j + 1]?
        = [" svname ", "#type"][j]?) ∧
      (∀ rows : List (List String),
        rowLoop 0 (["# pxname", " svname ", "#type"] :: rows) [] []
          = rowLoop 1 rows (extractHeader ["# pxname", " svname ", "#type"]) [])) :=
  ⟨by decide, by decide, by decide,
    extractHeader_first_cell_only "# pxname" [" svname ", "#type"] (by decide)⟩

/-- C14: when a column name occurs more than once in the header, the last
occurrence wins. For a data row of the header's width, the row mapping that the
loop hands to `mapToStats` maps a name `c` to the row's cell at the greatest
position `j` with `header[j] = c`. -/
theorem statsRow_last_wins (header record : List String) (j : Nat) (c v : String)
    (hlen : header.length = record.length)
    (hc : header[j]? = some c) (hv : record[j]? = some v)
    (hlast : ∀ j2, j < j2 → header[j2]? ≠ some c) :
    ∃ m : StatsRow, statsRowLoop record 0 header StatsRow.empty = some m ∧
      m c = some v ∧ m.get c = v := by
  refine ⟨rowMapping header record, statsRowLoop_rowMapping header record hlen, ?_⟩
  have hm : rowMapping header record c = some v :=
    foldl_set_last c v header record StatsRow.empty j hc hv hlast
  exact ⟨hm, by simp [StatsRow.get, hm]⟩

theorem statsRow_last_wins_witness :
    (extractHeader ["# pxname", "pxname"] = ["pxname", "pxname"] ∧
      parseCSV (fun _ => Except.ok [["# pxname", "pxname"], ["a", "b"]]) []
        = some ⟨[⟨"b", "", 0, "UNKNOWN", 0, 0, "", 0⟩], none⟩) ∧
    (∀ j2, 1 < j2 → ["pxname", "pxname"][j2]? ≠ some "pxname") ∧
    ∃ m : StatsRow, statsRowLoop ["a", "b"] 0 ["pxname", "pxname"] StatsRow.empty = some m ∧
      m "pxname" = some "b" ∧ m.get "pxname" = "b" :=
  have hlast : ∀ j2, 1 < j2 → ["pxname", "pxname"][j2]? ≠ some "pxname" := by
    intro j2 hj2
    have hnone : ["pxname", "pxname"][j2]? = none :=
      List.getElem?_eq_none (by simp; omega)
    rw [hnone]; simp
  ⟨by decide, hlast,
    statsRow_last_wins ["pxname", "pxname"] ["a", "b"] 1 "pxname" "b" rfl rfl rfl hlast⟩

/-- C15: the indexing of `parseCSV` is in bounds. On a decoded table in which
every row has at least one cell, `parseCSV` returns without a panic: `record[0]`
on row 0 is in range, and the loop over the header, which runs only after the
length check, reads `record[j]` at positions below the row's length. -/
theorem parseCSV_no_panic (readAll : Decoder) (data : Bytes)
    (hrows : ∀ records, readAll data = Except.ok records → ∀ row ∈ records, row ≠ []) :
    (∃ r : ParseResult, parseCSV readAll data = some r) ∧
    (∀ records, readAll data = Except.ok records →
      ∀ row ∈ records, ∃ cell : String, row[0]? = some cell) ∧
    (∀ (header record : List String) (m : StatsRow), header.length = record.length →
      (∀ j : Nat, j < header.length → ∃ cell : String, record[j]? = some cell) ∧
      ∃ m2 : StatsRow, statsRowLoop record 0 header m = some m2) := by
  refine ⟨?_, ?_, ?_⟩
  · cases hd : readAll data with
    | error e => exact ⟨⟨[], some e⟩, by simp [parseCSV, hd]⟩
    | ok records =>
      obtain ⟨r, hr, _⟩ := parseRecords_total records (hrows records hd)
      exact ⟨r, by rw [parseCSV_ok readAll data _ hd, hr]⟩
  · intro records hd row hrow
    have hne := hrows records hd row hrow
    obtain ⟨cell, rest, rfl⟩ := List.exists_cons_of_ne_nil hne
    exact ⟨cell, List.getElem?_cons_zero⟩
  · intro header record m hlen
    refine ⟨?_, statsRowLoop_total record header 0 m (by omega)⟩
    intro j hj
    exact ⟨record[j], List.getElem?_eq_getElem (by omega)⟩

theorem parseCSV_no_panic_witness :
    (∀ records,
      (fun _ => Except.ok [["# pxname", "type"], ["web", "2"], ["app", "1"], ["db", "1"]] : Decoder) []
        = Except.ok records → ∀ row ∈ records, row ≠ []) ∧
    parseCSV (fun _ => Except.ok [[], ["web", "2"]]) [] = none ∧
    ((∃ r : ParseResult,
      parseCSV (fun _ => Except.ok [["# pxname", "type"], ["web", "2"], ["app", "1"], ["db", "1"]]) []
        = some r) ∧
    (∀ records,
      (fun _ => Except.ok [["# pxname", "type"], ["web", "2"], ["app", "1"], ["db", "1"]] : Decoder) []
        = Except.ok records →
      ∀ row ∈ records, ∃ cell : String, row[0]? = some cell) ∧
    (∀ (header record : List String) (m : StatsRow), header.length = record.length →
      (∀ j : Nat, j < header.length → ∃ cell : String, record[j]? = some cell) ∧
      ∃ m2 : StatsRow, statsRowLoop record 0 header m = some m2)) :=
  have hrows : ∀ records,
      (fun _ => Except.ok [["# pxname", "type"], ["web", "2"], ["app", "1"], ["db", "1"]] : Decoder) []
        = Except.ok records → ∀ row ∈ records, row ≠ [] := by
    intro records h
    injection h with h
    subst h
    decide
  ⟨hrows, by decide,
    parseCSV_no_panic
      (fun _ => Except.ok [["# pxname", "type"], ["web", "2"], ["app", "1"], ["db", "1"]]) [] hrows⟩

/-! ## Lemmas on the field count check of `ReadAll` -/

theorem exists_first_bad_record (n : Nat) :
    ∀ (recs : List (Nat × List String)), (∃ r ∈ recs, r.2.length ≠ n) →
      ∃ pre bad post, recs = pre ++ bad :: post ∧ (∀ r ∈ pre, r.2.length = n) ∧
        bad.2.length ≠ n := by
  intro recs
  induction recs with
  | nil => rintro ⟨r, hr, _⟩; simp at hr
  | cons x rest ih =>
    rintro ⟨r, hr, hne⟩
    by_cases hx : x.2.length = n
    · have hrest : ∃ r ∈ rest, r.2.length ≠ n := by
        rcases List.mem_cons.mp hr with h | h
        · exact absurd (h ▸ hx) hne
        · exact ⟨r, h, hne⟩
      obtain ⟨pre, bad, post, he, hpre, hb⟩ := ih hrest
      refine ⟨x :: pre, bad, post, by simp [he], ?_, hb⟩
      intro y hy
      rcases List.mem_cons.mp hy with h | h
      · exact h ▸ hx
      · exact hpre y h
    · exact ⟨[], x, rest, by simp, by simp, hx⟩

theorem fieldCountLoop_mismatch (n : Nat) (hn : 0 < n) (bad : Nat × List String)
    (post : List (Nat × List String)) (lexErr : Option String) (hbad : bad.2.length ≠ n) :
    ∀ (pre : List (Nat × List String)) (records : List (List String)),
      (∀ r ∈ pre, r.2.length = n) →
      fieldCountLoop n (pre ++ bad :: post) lexErr records
        = Except.error (fieldCountMsg bad.1) := by
  intro pre
  induction pre with
  | nil =>
    intro records _
    obtain ⟨line, record⟩ := bad
    rw [List.nil_append, fieldCountLoop, if_pos hn, if_pos hbad]
  | cons r pre ih =>
    intro records hall
    obtain ⟨line, record⟩ := r
    have hr : record.length = n := hall (line, record) (List.mem_cons_self _ _)
    rw [List.cons_append, fieldCountLoop, if_pos hn, if_neg (by simpa using hr)]
    exact ih _ (fun x hx => hall x (List.mem_cons_of_mem _ hx))

theorem fieldCountLoop_ok (lexErr : Option String) :
    ∀ (recs : List (Nat × List String)) (n : Nat) (acc records : List (List String)),
      fieldCountLoop n recs lexErr acc = Except.ok records →
      ∃ rs, records = acc ++ rs ∧ (0 < n → ∀ r ∈ rs, r.length = n) := by
  intro recs
  induction recs with
  | nil =>
    intro n acc records h
    cases lexErr with
    | none =>
      rw [fieldCountLoop] at h
      injection h with h
      exact ⟨[], by simp [h], by simp⟩
    | some e => rw [fieldCountLoop] at h; cases h
  | cons x rest ih =>
    intro n acc records h
    obtain ⟨line, record⟩ := x
    rw [fieldCountLoop] at h
    by_cases hn : 0 < n
    · rw [if_pos hn] at h
      by_cases hr : record.length = n
      · rw [if_neg (by simpa using hr)] at h
        obtain ⟨rs, hrs, hall⟩ := ih n _ records h
        refine ⟨record :: rs, by simp [hrs], ?_⟩
        intro _ r hmem
        rcases List.mem_cons.mp hmem with h1 | h1
        · rw [h1]; exact hr
        · exact hall hn r h1
      · rw [if_pos hr] at h; cases h
    · rw [if_neg hn] at h
      obtain ⟨rs, hrs, _⟩ := ih record.length _ records h
      exact ⟨record :: rs, by simp [hrs], fun h0 => absurd h0 hn⟩

theorem ReadAll_uniform (readRecords : RecordReader) (data : Bytes) (row0 : List String)
    (rows : List (List String)) (h : ReadAll readRecords data = Except.ok (row0 :: rows))
    (hne : row0 ≠ []) :
    ∀ r ∈ rows, r.length = row0.length := by
  rw [ReadAll] at h
  cases hrecs : (readRecords data).1 with
  | nil =>
    rw [hrecs] at h
    cases hl : (readRecords data).2 with
    | none => rw [hl, fieldCountLoop] at h; cases h
    | some e => rw [hl, fieldCountLoop] at h; cases h
  | cons x rest =>
    obtain ⟨line, record⟩ := x
    rw [hrecs, fieldCountLoop, if_neg (by omega)] at h
    obtain ⟨rs, hrs, hall⟩ := fieldCountLoop_ok _ _ _ _ _ h
    simp only [List.nil_append, List.singleton_append, List.cons.injEq] at hrs
    obtain ⟨h0, h1⟩ := hrs
    subst h0; subst h1
    have hpos : 0 < row0.length := List.length_pos.mpr hne
    exact hall hpos

theorem fieldCountMsg_ne_mismatchMsg (line i : Nat) : fieldCountMsg line ≠ mismatchMsg i := by
  intro h
  have hd := congrArg String.data h
  simp [fieldCountMsg, mismatchMsg, String.data_append] at hd

/-! ## The claim on rows of the wrong width -/

/-- C2, as the claim states it, fails. On the input of the test "Invalid CSV",
whose header on line 1 has 7 cells and whose data row on line 2 (row index 1)
has 6, `parseCSV` returns no records and the error of the CSV reader, "record
on line 2: wrong number of fields", which names the input line and is not the
message for row index 1; with an empty line 2 before a short row the same row
index 1 is reported as line 3. -/
theorem parseCSV_mismatch_index_counterexample :
    hasHashPrefix "# pxname" = true ∧
    ["example", "FRONTEND", "1836", "2", "0", "OPEN"].length
      ≠ ["# pxname", "svname", "stot", "rate", "bck", "status", "scur"].length ∧
    parseCSV (ReadAll (fun _ =>
        ([(1, ["# pxname", "svname", "stot", "rate", "bck", "status", "scur"]),
          (2, ["example", "FRONTEND", "1836", "2", "0", "OPEN"])], none))) []
      = some ⟨[], some "record on line 2: wrong number of fields"⟩ ∧
    parseCSV (ReadAll (fun _ =>
        ([(1, ["# pxname", "svname", "stot", "rate", "bck", "status", "scur"]),
          (2, ["example", "FRONTEND", "1836", "2", "0", "OPEN"])], none))) []
      ≠ some ⟨[], some ("mismatched number of columns in record " ++ toString 1)⟩ ∧
    parseCSV (ReadAll (fun _ =>
        ([(1, ["# pxname", "svname"]), (3, ["example"])], none))) []
      = some ⟨[], some "record on line 3: wrong number of fields"⟩ := by
  decide

/-- C2, amended: for every input whose records, as the CSV reader splits them,
are a header row (with the `#` marker or without) and at least one data row,
if some data row has a cell count other than the header's, `parseCSV` returns
an error and no records, whatever the other rows are and whatever follows the
row in the input; the error is the CSV reader's "record on line L: wrong number
of fields", where L is the input line on which the first such row starts, not
the row's index. The table that the reader hands to the row loop has rows of one
width, so the message "mismatched number of columns in record i" of the row
loop is never returned on such an input. -/
theorem parseCSV_field_count_error (readRecords : RecordReader) (data : Bytes) (l0 : Nat)
    (c0 : String) (cs : List String) (rest : List (Nat × List String))
    (lexErr : Option String)
    (hlex : readRecords data = ((l0, c0 :: cs) :: rest, lexErr))
    (hbad : ∃ r ∈ rest, r.2.length ≠ (c0 :: cs).length) :
    (∃ (pre : List (Nat × List String)) (bad : Nat × List String)
        (post : List (Nat × List String)),
      rest = pre ++ bad :: post ∧
      (∀ r ∈ pre, r.2.length = (c0 :: cs).length) ∧
      bad.2.length ≠ (c0 :: cs).length ∧
      parseCSV (ReadAll readRecords) data
        = some ⟨[], some ("record on line " ++ toString bad.1
            ++ ": wrong number of fields")⟩) ∧
    (∀ i : Nat, parseCSV (ReadAll readRecords) data
      ≠ some ⟨[], some ("mismatched number of columns in record " ++ toString i)⟩) ∧
    (∀ (data2 : Bytes) (row0 : List String) (rows : List (List String)),
      ReadAll readRecords data2 = Except.ok (row0 :: rows) → row0 ≠ [] →
      ∀ r ∈ rows, r.length = row0.length) := by
  obtain ⟨pre, bad, post, he, hpre, hb⟩ := exists_first_bad_record _ rest hbad
  have hread : ReadAll readRecords data = Except.error (fieldCountMsg bad.1) := by
    rw [ReadAll, hlex]
    simp only
    rw [fieldCountLoop, if_neg (by omega), he]
    exact fieldCountLoop_mismatch _ (by simp) bad post lexErr hb pre _ hpre
  have hres : parseCSV (ReadAll readRecords) data = some ⟨[], some (fieldCountMsg bad.1)⟩ := by
    simp only [parseCSV, hread]
  refine ⟨⟨pre, bad, post, he, hpre, hb, hres⟩, ?_, ?_⟩
  · intro i hi
    rw [hres] at hi
    simp only [Option.some.injEq, ParseResult.mk.injEq, true_and] at hi
    exact fieldCountMsg_ne_mismatchMsg bad.1 i hi
  · intro data2 row0 rows h hne
    exact ReadAll_uniform readRecords data2 row0 rows h hne

theorem parseCSV_field_count_error_witness :
    (∃ r ∈ [(2, ["web", "2"]), (3, ["app"]), (4, ["db", "1"]), (5, ["x", "y", "z"])],
      r.2.length ≠ ["# pxname", "type"].length) ∧
    parseCSV (ReadAll (fun _ =>
        ([(1, ["# pxname", "type"]), (2, ["web", "2"]), (3, ["app"]), (4, ["db", "1"]),
          (5, ["x", "y", "z"])], none))) []
      = some ⟨[], some "record on line 3: wrong number of fields"⟩ ∧
    ((∃ (pre : List (Nat × List String)) (bad : Nat × List String)
        (post : List (Nat × List String)),
      [(2, ["web", "2"]), (3, ["app"]), (4, ["db", "1"]), (5, ["x", "y", "z"])]
        = pre ++ bad :: post ∧
      (∀ r ∈ pre, r.2.length = ["# pxname", "type"].length) ∧
      bad.2.length ≠ ["# pxname", "type"].length ∧
      parseCSV (ReadAll (fun _ =>
          ([(1, ["# pxname", "type"]), (2, ["web", "2"]), (3, ["app"]), (4, ["db", "1"]),
            (5, ["x", "y", "z"])], none))) []
        = some ⟨[], some ("record on line " ++ toString bad.1
            ++ ": wrong number of fields")⟩) ∧
    (∀ i : Nat, parseCSV (ReadAll (fun _ =>
          ([(1, ["# pxname", "type"]), (2, ["web", "2"]), (3, ["app"]), (4, ["db", "1"]),
            (5, ["x", "y", "z"])], none))) []
      ≠ some ⟨[], some ("mismatched number of columns in record " ++ toString i)⟩) ∧
    (∀ (data2 : Bytes) (row0 : List String) (rows : List (List String)),
      ReadAll (fun _ =>
          ([(1, ["# pxname", "type"]), (2, ["web", "2"]), (3, ["app"]), (4, ["db", "1"]),
            (5, ["x", "y", "z"])], none)) data2 = Except.ok (row0 :: rows) → row0 ≠ [] →
      ∀ r ∈ rows, r.length = row0.length)) :=
  ⟨by decide, by decide,
    parseCSV_field_count_error (fun _ =>
        ([(1, ["# pxname", "type"]), (2, ["web", "2"]), (3, ["app"]), (4, ["db", "1"]),
          (5, ["x", "y", "z"])], none)) []
      1 "# pxname" ["type"]
      [(2, ["web", "2"]), (3, ["app"]), (4, ["db", "1"]), (5, ["x", "y", "z"])] none
      rfl (by decide)⟩

end Haproxy
